import Mathlib

/-!
Verification of the schedule-my-uni EIOS schedule subsystem.

Shallow embedding of `src/typescript/schedule-parser.ts`,
`src/typescript/schedule-service.ts` (ScheduleService and EIOSClient) and the
ScheduleCache (cache.ts).  JavaScript regular-expression scanning is embedded
as explicit character-list matchers with the exact semantics of each pattern
(greedy `\\d+`, lazy `(.+?)`, leftmost-match scanning with the `g` flag).
Strings are Lean `String`s; JS numbers that are always integral are `Int`/`Nat`.
-/

namespace SMU

/-- The single-quote character U+0027 (written via its code point). -/
def sqc : Char := Char.ofNat 39

/-- One-character string holding a single quote. -/
def sq : String := String.singleton sqc

/-- The backslash character U+005C. -/
def bsc : Char := Char.ofNat 92

/-- `ScheduleEvent` from `types.ts` (fields used by the parser). -/
structure ScheduleEvent where
  course_name : String
  teacher : String
  start_time : String
  end_time : String
  type : String
  room : String
  address : String
  group : String
  day : Nat
  month : Nat
  year : Nat
  start_date : String
deriving DecidableEq

/-- `MONTH_NAMES` from `types.ts`: Russian month names keyed 1..12.  A key
outside the table is `undefined` in JS and renders as `"undefined"` in a
template literal. -/
def MONTH_NAMES : Nat → String
  | 1 => "января"
  | 2 => "февраля"
  | 3 => "марта"
  | 4 => "апреля"
  | 5 => "мая"
  | 6 => "июня"
  | 7 => "июля"
  | 8 => "августа"
  | 9 => "сентября"
  | 10 => "октября"
  | 11 => "ноября"
  | 12 => "декабря"
  | _ => "undefined"

/-- Match a literal character sequence at the head of the input, returning the
rest on success. -/
def matchLit : List Char → List Char → Option (List Char)
  | [], s => some s
  | _ :: _, [] => none
  | p :: ps, c :: cs => if c = p then matchLit ps cs else none

/-- Greedy run of ASCII digits (`\d*`): the maximal digit run and the rest. -/
def takeDigits : List Char → List Char × List Char
  | [] => ([], [])
  | c :: cs =>
    if c.isDigit then
      let (ds, r) := takeDigits cs
      (c :: ds, r)
    else ([], c :: cs)

/-- One pass of `String.prototype.split` with a nonempty string separator:
cut at each leftmost non-overlapping occurrence of `sep`.  `acc` holds the
(reversed) current piece; the fuel is the input length, enough because every
step consumes at least one character. -/
def splitSepAux (sep : List Char) : Nat → List Char → List Char → List (List Char)
  | _, acc, [] => [acc.reverse]
  | 0, acc, s => [acc.reverse ++ s]
  | fuel + 1, acc, c :: cs =>
    match matchLit sep (c :: cs) with
    | some rest => acc.reverse :: splitSepAux sep fuel [] rest
    | none => splitSepAux sep fuel (c :: acc) cs

/-- JS `String.prototype.split` for a nonempty string separator. -/
def jsSplit (s sep : String) : List String :=
  (splitSepAux sep.data s.data.length [] s.data).map String.mk

/-- `(\d{2}:\d{2})`: two digits, a colon, two digits. -/
def matchTime : List Char → Option (String × List Char)
  | a :: b :: c :: d :: e :: rest =>
    if a.isDigit && b.isDigit && c = ':' && d.isDigit && e.isDigit then
      some (String.mk [a, b, c, d, e], rest)
    else none
  | _ => none

/-- Characters matched by an (unflagged) JS regex `.`: anything but the four
line terminators. -/
def dotMatches (c : Char) : Bool :=
  !(c = Char.ofNat 10 || c = Char.ofNat 13 ||
    c = Char.ofNat 0x2028 || c = Char.ofNat 0x2029)

/-- The tail of the event pattern after the lazy blob:
`','(\d{2}:\d{2})','(\d{2}:\d{2})'`. -/
def matchTail (s : List Char) : Option (String × String × List Char) :=
  match matchLit [sqc, ',', sqc] s with
  | none => none
  | some s1 =>
    match matchTime s1 with
    | none => none
    | some (t1, s2) =>
      match matchLit [sqc, ',', sqc] s2 with
      | none => none
      | some s3 =>
        match matchTime s3 with
        | none => none
        | some (t2, s4) =>
          match matchLit [sqc] s4 with
          | none => none
          | some s5 => some (t1, t2, s5)

/-- Lazy `(.+?)` followed by `matchTail`: after each consumed character the
tail is tried first; `acc` holds the (reversed) blob consumed so far. -/
def lazyBlobAux : List Char → List Char → Option (String × String × String × List Char)
  | acc, [] =>
    (matchTail []).map (fun p => (String.mk acc.reverse, p.1, p.2.1, p.2.2))
  | acc, c :: cs =>
    match matchTail (c :: cs) with
    | some (t1, t2, rest) => some (String.mk acc.reverse, t1, t2, rest)
    | none => if dotMatches c then lazyBlobAux (c :: acc) cs else none

/-- A raw record produced by one match of the event pattern
`/\['(\d+)_\d+',2,\['(.+?)','(\d{2}:\d{2})','(\d{2}:\d{2})'/g`
(`schedule-parser.ts`, line 26): `fullString` is capture 2, `startTime`
capture 3, `endTime` capture 4. -/
structure RawRecord where
  fullString : String
  startTime : String
  endTime : String
deriving DecidableEq

/-- Try to match the event pattern anchored at the start of `s`.  On success
returns the captured record and the input remaining after the match. -/
def matchRecordAt (s : List Char) : Option (RawRecord × List Char) :=
  match matchLit ['[', sqc] s with
  | none => none
  | some s1 =>
    let (d1, s2) := takeDigits s1
    if d1.isEmpty then none
    else
      match matchLit ['_'] s2 with
      | none => none
      | some s3 =>
        let (d2, s4) := takeDigits s3
        if d2.isEmpty then none
        else
          match matchLit [sqc, ',', '2', ',', '[', sqc] s4 with
          | none => none
          | some s5 =>
            match s5 with
            | [] => none
            | c :: cs =>
              if dotMatches c then
                match lazyBlobAux [c] cs with
                | some (blob, t1, t2, rest) => some (⟨blob, t1, t2⟩, rest)
                | none => none
              else none

/-- One scanning step of `pattern.exec` with the `g` flag: try the pattern at
each position from left to right; after a match, resume at its end.  `fuel`
bounds the recursion; every successful match consumes at least one character,
so `s.length` fuel is always enough (see `scanRecordsAux_fuel`). -/
def scanRecordsAux : Nat → List Char → List RawRecord
  | 0, _ => []
  | _, [] => []
  | fuel + 1, c :: cs =>
    match matchRecordAt (c :: cs) with
    | some (r, rest) => r :: scanRecordsAux fuel rest
    | none => scanRecordsAux fuel cs

/-- All matches of the event pattern, in textual order. -/
def scanRecords (s : List Char) : List RawRecord :=
  scanRecordsAux s.length s

/-- The `day`/`month`/`year` triple extracted by `extractDate`. -/
structure ParsedDate where
  day : Nat
  month : Nat
  year : Nat
deriving DecidableEq

/-- `parseInt(ds, 10)` on a nonempty digit run. -/
def digitsToNat (ds : List Char) : Nat :=
  ds.foldl (fun a c => a * 10 + (c.toNat - 48)) 0

/-- Generic first-match scanner: try `f` at every suffix, left to right. -/
def scanFirst {α : Type} (f : List Char → Option α) : List Char → Option α
  | [] => f []
  | c :: cs =>
    match f (c :: cs) with
    | some v => some v
    | none => scanFirst f cs

/-- The literal `'visibleDays':'` that opens both visible-date patterns. -/
def visLit : List Char := [sqc] ++ "visibleDays".data ++ [sqc, ':', sqc]

/-- `/'visibleDays':'(\d+)\/(\d+)\/(\d+)'/` anchored at the head of `s`
(used by `ScheduleParser.extractDate`). -/
def matchVisibleDigitsAt (s : List Char) : Option (Nat × Nat × Nat) :=
  match matchLit visLit s with
  | none => none
  | some s1 =>
    let (a, r1) := takeDigits s1
    if a.isEmpty then none
    else
      match matchLit ['/'] r1 with
      | none => none
      | some r2 =>
        let (b, r3) := takeDigits r2
        if b.isEmpty then none
        else
          match matchLit ['/'] r3 with
          | none => none
          | some r4 =>
            let (c, r5) := takeDigits r4
            if c.isEmpty then none
            else
              match matchLit [sqc] r5 with
              | none => none
              | some _ => some (digitsToNat a, digitsToNat b, digitsToNat c)

/-- `ScheduleParser.extractDate`: first `'visibleDays':'D/M/Y'` marker, or the
all-zero date when the marker is absent. -/
def ScheduleParser.extractDate (html : String) : ParsedDate :=
  match scanFirst matchVisibleDigitsAt html.data with
  | some (d, m, y) => ⟨d, m, y⟩
  | none => ⟨0, 0, 0⟩

/-- Whitespace for JS `String.prototype.trim` and regex `\s` (the code points
that occur in portal payloads; exotic Unicode space code points of the full JS
class are omitted as they cannot be produced by the patterns at hand). -/
def jsSpace (c : Char) : Bool :=
  c = ' ' || c = Char.ofNat 9 || c = Char.ofNat 10 || c = Char.ofNat 11 ||
  c = Char.ofNat 12 || c = Char.ofNat 13 || c = Char.ofNat 160 ||
  c = Char.ofNat 0xfeff || c = Char.ofNat 0x2028 || c = Char.ofNat 0x2029

/-- Lexicographic comparison of character lists (strict). -/
def charsLtLex : List Char → List Char → Bool
  | [], [] => false
  | [], _ :: _ => true
  | _ :: _, [] => false
  | a :: as, b :: bs => a < b || (a = b && charsLtLex as bs)

/-- Strict lexicographic order on strings, used to state the
`start_time < end_time` invariant (agrees with `String.lt`,
see `strLtLex_iff_lt`). -/
def strLtLex (a b : String) : Bool :=
  charsLtLex a.data b.data

/-- JS `String.prototype.trim`. -/
def jsTrim (s : String) : String :=
  String.mk (((s.data.dropWhile jsSpace).reverse.dropWhile jsSpace).reverse)

/-- The `replace` of a caret-dash pattern by the empty string: drop one
leading dash if present. -/
def stripLeadingDash (s : String) : String :=
  match s.data with
  | c :: cs => if c = '-' then String.mk cs else s
  | [] => s

/-- JS `String.prototype.includes` for a nonempty pattern: the pattern
matches literally at some position. -/
def strContains (s pat : String) : Bool :=
  (scanFirst (fun t => matchLit pat.data t) s.data).isSome

/-- `/\(пр:\s*([^)]+)\)/` anchored at the head of `s`: the literal `(пр:`,
then `\s*`, then a maximal nonempty run of non-`)` characters followed by
`)`. -/
def matchTeacherAt (s : List Char) : Option String :=
  match matchLit ['(', 'п', 'р', ':'] s with
  | none => none
  | some s1 =>
    let s2 := s1.dropWhile jsSpace
    let body := s2.takeWhile (fun c => c ≠ ')')
    match s2.dropWhile (fun c => c ≠ ')') with
    | _ :: _ => if body.isEmpty then none else some (String.mk body)
    | [] => none

/-- `ScheduleParser.extractTeacher`: first `(пр: <name>)` span, trimmed;
empty string when absent. -/
def ScheduleParser.extractTeacher (line : String) : String :=
  match scanFirst matchTeacherAt line.data with
  | some t => jsTrim t
  | none => ""

/-- `/ауд\.?\s*(\d+)/` anchored at the head of `s`.  The optional dot is
deterministic: when the character after `ауд` is a dot, the dotless
alternative cannot succeed either (a dot is neither `\s` nor `\d`). -/
def matchRoomAt (s : List Char) : Option String :=
  match matchLit ['а', 'у', 'д'] s with
  | none => none
  | some s1 =>
    let s2 :=
      match s1 with
      | c :: r => if c = '.' then r else s1
      | [] => s1
    let s3 := s2.dropWhile jsSpace
    let (ds, _) := takeDigits s3
    if ds.isEmpty then none else some (String.mk ds)

/-- `/\(([^)]+)\)/` anchored at the head of `s`: a parenthesized nonempty
span of non-`)` characters. -/
def matchAddrAt (s : List Char) : Option String :=
  match s with
  | [] => none
  | c :: cs =>
    if c = '(' then
      let body := cs.takeWhile (fun x => x ≠ ')')
      match cs.dropWhile (fun x => x ≠ ')') with
      | _ :: _ => if body.isEmpty then none else some (String.mk body)
      | [] => none
    else none

/-- `ScheduleParser.parseDetails`: classify the details blob into
(event type, room, address), exactly in the order the source fills the
event object. -/
def ScheduleParser.parseDetails (details : String) : String × String × String :=
  let t :=
    if strContains details "Лекция" then "Лекция"
    else if strContains details "Практическое занятие" then "Практическое занятие"
    else if strContains details "Семинар" then "Семинар"
    else if strContains details "Лабораторная работа" then "Лабораторная работа"
    else ""
  let room :=
    match scanFirst matchRoomAt details.data with
    | some r => r
    | none => ""
  let addr :=
    match scanFirst matchAddrAt details.data with
    | some a => a
    | none => ""
  (t, room, addr)

/-- The runtime separator of the `fullString.split('\\\\r\\\\n')` call:
six characters, backslash backslash `r` backslash backslash `n` (the payload
carries `\r\n` escaped twice). -/
def sepStr : String := String.mk [bsc, bsc, 'r', bsc, bsc, 'n']

/-- The loop body of `ScheduleParser.parseResponse` for one matched record:
split the blob on `sepStr`; with fewer than 4 segments the record is dropped
(`continue`), otherwise an event is assembled. -/
def ScheduleParser.buildEvent (d : ParsedDate) (r : RawRecord) : Option ScheduleEvent :=
  let parts := jsSplit r.fullString sepStr
  if parts.length < 4 then none
  else
    let courseName := parts.getD 0 ""
    let details := jsTrim (stripLeadingDash (parts.getD 1 ""))
    let teacherLine := parts.getD 2 ""
    let grp := parts.getD 3 ""
    let teacher := ScheduleParser.extractTeacher teacherLine
    let tra := ScheduleParser.parseDetails details
    some
      { course_name := courseName
        teacher := teacher
        start_time := r.startTime
        end_time := r.endTime
        type := tra.1
        room := tra.2.1
        address := tra.2.2
        group := grp
        day := d.day
        month := d.month
        year := d.year
        start_date :=
          if d.month ≠ 0 then
            toString d.day ++ " " ++ MONTH_NAMES d.month ++ " " ++ toString d.year
          else "" }

/-- Decoding of a list of matched records: each record independently yields
zero or one event. -/
def decodeRecords (d : ParsedDate) (rs : List RawRecord) : List ScheduleEvent :=
  rs.filterMap (ScheduleParser.buildEvent d)

/-- `ScheduleParser.parseResponse`: extract the shared date, scan all records
of the event pattern and decode each one. -/
def ScheduleParser.parseResponse (html : String) : List ScheduleEvent :=
  decodeRecords (ScheduleParser.extractDate html) (scanRecords html.data)

/-! ## ScheduleCache (cache.ts)

The two key-value backends are modeled as association lists from key to the
stored envelope.  `JSON.stringify`/`JSON.parse` of a `{data, timestamp, ttl}`
envelope of strings and integral numbers is a faithful round trip, so the
envelope is stored directly.  Telegram `CloudStorage` exists only when the
host exposes it: `cloudStore = none` models an environment without it (then
no remote backend exists at all).  Backend callback errors are not modeled:
every modeled backend operation succeeds, which is the execution the claims
describe. -/

/-- The `{data, timestamp, ttl}` cache envelope (`CacheItem` in `types.ts`).
`ttl = 0` models the JS-falsy TTL (absent or zero) that `isValid` treats as
an infinite cache. -/
structure CacheItem where
  data : List ScheduleEvent
  timestamp : Int
  ttl : Int
deriving DecidableEq

/-- `CacheOptions` from `types.ts`: both fields optional. -/
structure CacheOptions where
  ttl : Option Int
  useCloudStorage : Option Bool
deriving DecidableEq

/-- A key-value backend. -/
abbrev Store := List (String × CacheItem)

/-- Lookup in a backend (`getItem`). -/
def kvGet : Store → String → Option CacheItem
  | [], _ => none
  | (k, v) :: r, key => if k = key then some v else kvGet r key

/-- Remove a key from a backend (`removeItem`). -/
def kvRemove (l : Store) (key : String) : Store :=
  l.filter (fun p => p.1 ≠ key)

/-- Overwrite a key in a backend (`setItem`). -/
def kvSet (l : Store) (key : String) (v : CacheItem) : Store :=
  (key, v) :: kvRemove l key

/-- The two backends.  `cloudStore = none`: the host exposes no CloudStorage
(`isCloudStorageAvailable()` is false and no remote backend exists). -/
structure CacheState where
  cloudStore : Option Store
  localStore : Store
deriving DecidableEq

/-- `CACHE_PREFIX` (`schedule_`) applied by `getCacheKey`. -/
def getCacheKey (date : String) : String := "schedule_" ++ date

/-- `DEFAULT_TTL`: 24 hours in milliseconds. -/
def DEFAULT_TTL : Int := 24 * 60 * 60 * 1000

/-- `ScheduleCache.isValid`: a falsy `ttl` means an infinite cache, otherwise
the age `now - timestamp` must be below the TTL. -/
def ScheduleCache.isValid (item : CacheItem) (now : Int) : Bool :=
  if item.ttl = 0 then true
  else now - item.timestamp < item.ttl

/-- `ScheduleCache.save`: build the envelope stamped with `Date.now()` and
the option TTL (falsy → `DEFAULT_TTL`), then write it to CloudStorage when
available and not explicitly disabled, otherwise to localStorage. -/
def ScheduleCache.save (date : String) (events : List ScheduleEvent)
    (options : Option CacheOptions) (now : Int) (st : CacheState) : CacheState :=
  let key := getCacheKey date
  let ttl :=
    match options with
    | some o =>
      match o.ttl with
      | some t => if t = 0 then DEFAULT_TTL else t
      | none => DEFAULT_TTL
    | none => DEFAULT_TTL
  let item : CacheItem := ⟨events, now, ttl⟩
  let wantCloud :=
    match options with
    | some o =>
      match o.useCloudStorage with
      | some false => false
      | _ => true
    | none => true
  match st.cloudStore with
  | some cloud =>
    if wantCloud then { st with cloudStore := some (kvSet cloud key item) }
    else { st with localStore := kvSet st.localStore key item }
  | none => { st with localStore := kvSet st.localStore key item }

/-- `ScheduleCache.remove`: delete the key from CloudStorage when available,
and always from localStorage. -/
def ScheduleCache.remove (date : String) (st : CacheState) : CacheState :=
  let key := getCacheKey date
  let st1 :=
    match st.cloudStore with
    | some cloud => { st with cloudStore := some (kvRemove cloud key) }
    | none => st
  { st1 with localStore := kvRemove st1.localStore key }

/-- The read half of `ScheduleCache.get`: CloudStorage first when available,
then localStorage. -/
def ScheduleCache.read (key : String) (st : CacheState) : Option CacheItem :=
  let fromCloud :=
    match st.cloudStore with
    | some cloud => kvGet cloud key
    | none => none
  match fromCloud with
  | some it => some it
  | none => kvGet st.localStore key

/-- `ScheduleCache.get`: read the envelope (cloud first, then local); on an
expired envelope remove it from both backends and return null (lazy
eviction).  Returns the result together with the possibly-updated state. -/
def ScheduleCache.get (date : String) (now : Int) (st : CacheState) :
    Option (List ScheduleEvent) × CacheState :=
  match ScheduleCache.read (getCacheKey date) st with
  | none => (none, st)
  | some item =>
    if ScheduleCache.isValid item now then (some item.data, st)
    else (none, ScheduleCache.remove date st)

/-- Whether the remote backend holds a key: false when CloudStorage is not
exposed by the host (then no remote backend exists to inspect). -/
def cloudHas (st : CacheState) (key : String) : Bool :=
  match st.cloudStore with
  | some cloud => (kvGet cloud key).isSome
  | none => false

/-! ## ScheduleService (schedule-service.ts)

`getScheduleForDay` is modeled with the fetch pipeline as an oracle: `fetched`
is the event list `eiosClient.fetchSchedule` would return for the requested
date, and the result records how many times the pipeline ran.  Credentials
retrieval does not affect the cache or the fetch count and is not modeled. -/

/-- The service configuration after the constructor applied its defaults
(`useCache: true`, `cacheTTL: 24h`). -/
structure ScheduleServiceConfig where
  useCache : Bool
  cacheTTL : Int
deriving DecidableEq

/-- The configuration produced by `new ScheduleService({apiUrl})`. -/
def defaultServiceConfig : ScheduleServiceConfig :=
  ⟨true, 24 * 60 * 60 * 1000⟩

/-- Result of one `getScheduleForDay` call: the returned events, the cache
state afterwards, and how many times the fetch pipeline ran (0 or 1). -/
structure DayResult where
  events : List ScheduleEvent
  state : CacheState
  fetches : Nat
deriving DecidableEq

/-- Steps 2–4 of `getScheduleForDay`: run the fetch pipeline, then save the
result when caching is on and the event list is nonempty
(`useCache && events.length > 0`), with `ttl = config.cacheTTL` and
`useCloudStorage: true`. -/
def ScheduleService.fetchAndCache (cfg : ScheduleServiceConfig)
    (fetched : List ScheduleEvent) (date : String) (now : Int)
    (st : CacheState) : DayResult :=
  let st2 :=
    if cfg.useCache && decide (0 < fetched.length) then
      ScheduleCache.save date fetched (some ⟨some cfg.cacheTTL, some true⟩) now st
    else st
  ⟨fetched, st2, 1⟩

/-- `ScheduleService.getScheduleForDay`: consult the cache unless
`forceRefresh` (returning a hit immediately); otherwise run the pipeline and
cache a nonempty result. -/
def ScheduleService.getScheduleForDay (cfg : ScheduleServiceConfig)
    (fetched : List ScheduleEvent) (date : String) (forceRefresh : Bool)
    (now : Int) (st : CacheState) : DayResult :=
  if cfg.useCache && !forceRefresh then
    match ScheduleCache.get date now st with
    | (some cached, st1) => ⟨cached, st1, 0⟩
    | (none, st1) => ScheduleService.fetchAndCache cfg fetched date now st1
  else ScheduleService.fetchAndCache cfg fetched date now st

/-! ## EIOSClient (eios-client.ts) -/

/-- The observable part of a `fetch` `Response`. -/
structure HttpResponse where
  ok : Bool
  status : Nat
  statusText : String
  body : String

/-- The kind (constructor/class) of a thrown JS error.  The source only ever
constructs the plain `Error` class (`genericError`); the two other kinds name
the error classes the specification prescribes, so that statements can
compare against them. -/
inductive JsErrorKind
  | genericError
  | authenticationError
  | networkError
deriving DecidableEq

/-- A thrown JS error: its class and its message. -/
structure JsError where
  kind : JsErrorKind
  message : String
deriving DecidableEq

/-- `EIOSClient.fetchInitialPage`, given the portal's response: on
`response.ok` return the body, otherwise throw
`new Error("HTTP <status>: <statusText>")` — the same plain `Error` class for
every non-success status. -/
def EIOSClient.fetchInitialPage (resp : HttpResponse) : Except JsError String :=
  if resp.ok then Except.ok resp.body
  else Except.error
    ⟨JsErrorKind.genericError, "HTTP " ++ toString resp.status ++ ": " ++ resp.statusText⟩

/-! ### Date handling of `navigateToDate`

`dateToTimestamp` evaluates `new Date("YYYY-MM-DD").getTime()`.  ECMA-262
interprets a date-only ISO string as midnight **UTC**; the embedding follows
the spec's `MakeDay`/`TimeClip` algorithm on the parsed triple.  `none`
models `NaN` (unparsable string). -/

/-- ECMAScript leap-year predicate. -/
def ecmaIsLeap (y : Int) : Bool :=
  (y % 4 = 0 && y % 100 ≠ 0) || y % 400 = 0

/-- Cumulative days before 1-based month `m` in a non-leap year
(ECMAScript `DayWithinYear` month table). -/
def monthOffset : Nat → Int
  | 1 => 0
  | 2 => 31
  | 3 => 59
  | 4 => 90
  | 5 => 120
  | 6 => 151
  | 7 => 181
  | 8 => 212
  | 9 => 243
  | 10 => 273
  | 11 => 304
  | 12 => 334
  | _ => 0

/-- ECMAScript `DayFromYear`: days from the epoch to Jan 1 of year `y`. -/
def dayFromYear (y : Int) : Int :=
  365 * (y - 1970) + (y - 1969).fdiv 4 - (y - 1901).fdiv 100 + (y - 1601).fdiv 400

/-- ECMAScript `MakeDay` for a 1-based month: days from the epoch to
`y`-`m`-`d`. -/
def ecmaMakeDay (y : Int) (m d : Nat) : Int :=
  dayFromYear y + monthOffset m +
    (if 3 ≤ m && ecmaIsLeap y then 1 else 0) + ((d : Int) - 1)

/-- Decimal-digit check on a string of a fixed length. -/
def allDigitsLen (s : String) (n : Nat) : Bool :=
  s.length = n && s.data.all Char.isDigit

/-- Parse the ECMAScript date-only form `YYYY-MM-DD` (month `01`–`12`, day
`01`–`31`); anything else yields `NaN` (`none`). -/
def parseIsoDate (s : String) : Option (Int × Nat × Nat) :=
  match jsSplit s "-" with
  | [ys, ms, ds] =>
    if allDigitsLen ys 4 && allDigitsLen ms 2 && allDigitsLen ds 2 then
      let m := digitsToNat ms.data
      let d := digitsToNat ds.data
      if 1 ≤ m && m ≤ 12 && 1 ≤ d && d ≤ 31 then
        some ((digitsToNat ys.data : Int), m, d)
      else none
    else none
  | _ => none

/-- `EIOSClient.dateToTimestamp`: `new Date(dateStr).getTime()` for the
date-only form — the UTC-midnight epoch milliseconds of the parsed date. -/
def EIOSClient.dateToTimestamp (dateStr : String) : Option Int :=
  (parseIsoDate dateStr).map (fun p => ecmaMakeDay p.1 p.2.1 p.2.2 * 86400000)

/-- The `__CALLBACKPARAM` value built by `EIOSClient.navigateToDate`
(line 556): `c0:MOREBTN|<end>,<start>,<dayMs>,null` with
`start = dateToTimestamp(targetDate)`, `end = start + 86400000`. -/
def EIOSClient.navigateCallbackParam (targetDate : String) : Option String :=
  (EIOSClient.dateToTimestamp targetDate).map (fun ts =>
    "c0:MOREBTN|" ++ toString (ts + 86400000) ++ "," ++ toString ts ++
      ",86400000,null")

/-- Days from 1970-01-01 to `y`-`m`-`d` by the civil-calendar era/cycle
computation — an algorithm independent of the ECMAScript `MakeDay`
embedding above, used as the specification-side notion of the date's
midnight. -/
def civilDaysFromEpoch (y : Int) (m d : Nat) : Int :=
  let yy := if m ≤ 2 then y - 1 else y
  let era := yy.fdiv 400
  let yoe := yy - era * 400
  let doy := (153 * ((m : Int) + (if 2 < m then -3 else 9)) + 2).fdiv 5 + (d : Int) - 1
  let doe := yoe * 365 + yoe.fdiv 4 - yoe.fdiv 100 + doy
  era * 146097 + doe - 719468

/-- Modelled from the spec: "the target date's midnight in local time" as
epoch milliseconds, in an environment whose `getTimezoneOffset` (minutes,
UTC minus local) is the constant `tzOffsetMinutes`: local midnight happens
`tzOffsetMinutes` minutes after UTC midnight. -/
def localMidnightMillis (tzOffsetMinutes : Int) (y : Int) (m d : Nat) : Int :=
  civilDaysFromEpoch y m d * 86400000 + tzOffsetMinutes * 60000

/-! ### Navigation verification (`EIOSClient.verifyNavigation`) -/

/-- `/'visibleDays':'([^']+)'/` anchored at the head of `s`: the raw
visible-date text up to the closing quote. -/
def matchVisibleRawAt (s : List Char) : Option String :=
  match matchLit visLit s with
  | none => none
  | some s1 =>
    let body := s1.takeWhile (fun c => c ≠ sqc)
    match s1.dropWhile (fun c => c ≠ sqc) with
    | _ :: _ => if body.isEmpty then none else some (String.mk body)
    | [] => none

/-- JS `Number(x)` restricted to the inputs at hand: a nonempty digit string
is its decimal value, anything else is `NaN` (`none`). -/
def jsNumber (s : String) : Option Nat :=
  if !s.data.isEmpty && s.data.all Char.isDigit then some (digitsToNat s.data)
  else none

/-- `String.prototype.padStart(2, "0")`. -/
def padStart2 (s : String) : String :=
  if s.length ≥ 2 then s
  else String.mk (List.replicate (2 - s.length) '0') ++ s

/-- One destructured component of `visibleDate.split('/')` rendered the way
the source does: `String(Number(part))` (missing part → `"undefined"`,
non-numeric → `"NaN"`), padded for day and month. -/
def visiblePart (parts : List String) (i : Nat) (pad : Bool) : String :=
  match parts.get? i with
  | none => "undefined"
  | some p =>
    match jsNumber p with
    | some v => if pad then padStart2 (toString v) else toString v
    | none => "NaN"

/-- The `dateFromResponse` string `verifyNavigation` builds from the
visible-date text: split on `/`, destructure as `[day, month, year]`, render
`year-MM-DD` (day/month/year order). -/
def EIOSClient.dateFromResponse (visibleDate : String) : String :=
  let parts := jsSplit visibleDate "/"
  visiblePart parts 2 false ++ "-" ++ visiblePart parts 1 true ++ "-" ++
    visiblePart parts 0 true

/-- Modelled from the spec: the alternative month/day/year reading of the
visible-date field that claim C9 rules out — the same rendering with the
first component taken as the month and the second as the day. -/
def dateFromResponseMDY (visibleDate : String) : String :=
  let parts := jsSplit visibleDate "/"
  visiblePart parts 2 false ++ "-" ++ visiblePart parts 0 true ++ "-" ++
    visiblePart parts 1 true

/-- `EIOSClient.verifyNavigation`: when the response carries a
`'visibleDays'` field, whether the date rebuilt from it (day/month/year)
equals the requested target date; `none` when the field is absent (then no
verification happens). -/
def EIOSClient.verifyNavigation (html targetDate : String) : Option Bool :=
  match scanFirst matchVisibleRawAt html.data with
  | none => none
  | some vd => some (decide (EIOSClient.dateFromResponse vd = targetDate))

/-! ## Fixtures -/

/-- The doubly-escaped CR-LF separator as it appears in raw payload text
(six characters). -/
def esc : String := "\\\\r\\\\n"

/-- A payload carrying exactly the record of the concrete decode scenario:
blob segments `English` / `-Лекция ауд.206 (Комсомольский пр-кт, д.6)` /
`(пр: Иванов И.И.)` / `Группа1`, times `11:00` and `12:20`. -/
def c8html : String :=
  "[" ++ sq ++ "133683_0" ++ sq ++ ",2,[" ++ sq ++ "English" ++ esc ++
  "-Лекция ауд.206 (Комсомольский пр-кт, д.6)" ++ esc ++ "(пр: Иванов И.И.)" ++ esc ++
  "Группа1" ++ sq ++ "," ++ sq ++ "11:00" ++ sq ++ "," ++ sq ++ "12:20" ++ sq

/-- The event the concrete decode scenario prescribes (the fixture carries no
`visibleDays` marker, so the date fields are the parser's zero defaults). -/
def c8event : ScheduleEvent :=
  { course_name := "English", teacher := "Иванов И.И.", start_time := "11:00",
    end_time := "12:20", type := "Лекция", room := "206",
    address := "Комсомольский пр-кт, д.6", group := "Группа1",
    day := 0, month := 0, year := 0, start_date := "" }

/-- A well-formed payload record whose times are reversed: start `15:50`,
end `14:30`. -/
def badTimesHtml : String :=
  "[" ++ sq ++ "1_0" ++ sq ++ ",2,[" ++ sq ++ "A" ++ esc ++ "B" ++ esc ++ "C" ++
  esc ++ "D" ++ sq ++ "," ++ sq ++ "15:50" ++ sq ++ "," ++ sq ++ "14:30" ++ sq

/-- A well-formed payload record with increasing times. -/
def goodRecordHtml : String :=
  "[" ++ sq ++ "7_0" ++ sq ++ ",2,[" ++ sq ++ "A" ++ esc ++ "B" ++ esc ++ "C" ++
  esc ++ "D" ++ sq ++ "," ++ sq ++ "11:00" ++ sq ++ "," ++ sq ++ "12:20" ++ sq

/-- A navigation response reporting `'visibleDays':'6/3/2026'`. -/
def c9html : String :=
  "stateObject " ++ sq ++ "visibleDays" ++ sq ++ ":" ++ sq ++ "6/3/2026" ++ sq ++ " rest"

/-- A sample schedule event for cache/service witnesses. -/
def ev1 : ScheduleEvent :=
  ⟨"Матанализ", "", "09:00", "10:20", "", "", "", "", 0, 0, 0, ""⟩

/-- A cache state without CloudStorage whose local backend holds an entry
for 2026-03-06 written at time 0 with a 1000 ms TTL. -/
def c10state : CacheState :=
  ⟨none, [(getCacheKey "2026-03-06", ⟨[ev1], 0, 1000⟩)]⟩

set_option maxRecDepth 10000

/-! ## Theorems -/

/-- Helper: `charsLtLex` agrees with the inductive lexicographic order
`List.lt` on character lists. -/
lemma charsLtLex_iff (x y : List Char) : charsLtLex x y = true ↔ List.lt x y := by
  induction x generalizing y with
  | nil =>
    cases y with
    | nil =>
      exact iff_of_false (by simp [charsLtLex]) (fun h => by cases h)
    | cons c cs =>
      exact iff_of_true (by simp [charsLtLex]) (List.lt.nil c cs)
  | cons c cs ih =>
    cases y with
    | nil =>
      exact iff_of_false (by simp [charsLtLex]) (fun h => by cases h)
    | cons e es =>
      simp only [charsLtLex, Bool.or_eq_true, Bool.and_eq_true, decide_eq_true_eq]
      constructor
      · rintro (hlt | ⟨rfl, htl⟩)
        · exact List.lt.head _ _ hlt
        · exact List.lt.tail (lt_irrefl c) (lt_irrefl c) ((ih es).mp htl)
      · intro h
        cases h with
        | head _ _ hlt => exact Or.inl hlt
        | tail h1 h2 htl =>
          exact Or.inr ⟨le_antisymm (not_lt.mp h2) (not_lt.mp h1), (ih es).mpr htl⟩

/-- Helper: `strLtLex` is the lexicographic order on the strings'
character lists. -/
lemma strLtLex_iff_lt (a b : String) : strLtLex a b = true ↔ List.lt a.data b.data :=
  charsLtLex_iff a.data b.data

/-- Helper: a decoded event carries the matched record's times verbatim. -/
lemma buildEvent_times {d : ParsedDate} {r : RawRecord} {e : ScheduleEvent}
    (h : ScheduleParser.buildEvent d r = some e) :
    e.start_time = r.startTime ∧ e.end_time = r.endTime := by
  simp only [ScheduleParser.buildEvent] at h
  split at h
  · exact absurd h (by simp)
  · simp only [Option.some.injEq] at h
    subst h
    exact ⟨rfl, rfl⟩

/-- C1, counterexample: the parser does not enforce the time invariant — on a
payload whose single record carries start `15:50` and end `14:30`, decoding
emits that event unchanged, so not every decoded event has
`start_time < end_time` lexicographically. -/
theorem C1_counterexample :
    ¬ (∀ e ∈ ScheduleParser.parseResponse badTimesHtml,
        strLtLex e.start_time e.end_time = true) := by
  decide

/-- C1, amended: decoded events copy their `start_time`/`end_time` verbatim
from the matched record, so whenever every matched record of the payload has
lexicographically increasing times, every decoded `ScheduleEvent` satisfies
`start_time < end_time`; the parser itself performs no such check. -/
theorem C1_amended (html : String)
    (h : ∀ r ∈ scanRecords html.data, strLtLex r.startTime r.endTime = true) :
    ∀ e ∈ ScheduleParser.parseResponse html, strLtLex e.start_time e.end_time = true := by
  intro e he
  unfold ScheduleParser.parseResponse decodeRecords at he
  obtain ⟨r, hr, hbe⟩ := List.mem_filterMap.mp he
  obtain ⟨h1, h2⟩ := buildEvent_times hbe
  rw [h1, h2]
  exact h r hr

/-- C1, witness: on a concrete payload whose only record has increasing
times, the amended statement applies and every decoded event has increasing
times. -/
theorem C1_witness :
    (∀ r ∈ scanRecords goodRecordHtml.data, strLtLex r.startTime r.endTime = true) ∧
    (∀ e ∈ ScheduleParser.parseResponse goodRecordHtml,
      strLtLex e.start_time e.end_time = true) :=
  ⟨by decide, C1_amended goodRecordHtml (by decide)⟩

/-- C2, counterexample: `fetchInitialPage` throws the plain JS `Error` class
on HTTP 401 — not a distinct `AuthenticationError` — and the very same class
on HTTP 500, so the two error kinds a caller would need to distinguish
coincide. -/
theorem C2_counterexample :
    EIOSClient.fetchInitialPage ⟨false, 401, "Unauthorized", ""⟩ =
      Except.error ⟨JsErrorKind.genericError, "HTTP 401: Unauthorized"⟩ ∧
    EIOSClient.fetchInitialPage ⟨false, 500, "Internal Server Error", ""⟩ =
      Except.error ⟨JsErrorKind.genericError, "HTTP 500: Internal Server Error"⟩ ∧
    JsErrorKind.genericError ≠ JsErrorKind.authenticationError := by
  refine ⟨rfl, rfl, by decide⟩

/-- C2, amended: on every non-success response — 401/403 and any other
status alike — `fetchInitialPage` throws the same plain
`Error("HTTP <status>: <statusText>")`; callers cannot distinguish
authentication failures from other network failures by error kind. -/
theorem C2_amended (resp : HttpResponse) (h : resp.ok = false) :
    EIOSClient.fetchInitialPage resp =
      Except.error ⟨JsErrorKind.genericError,
        "HTTP " ++ toString resp.status ++ ": " ++ resp.statusText⟩ := by
  unfold EIOSClient.fetchInitialPage
  rw [h]
  simp

/-- C2, witness: the amended statement at a concrete 403 response. -/
theorem C2_witness :
    EIOSClient.fetchInitialPage ⟨false, 403, "Forbidden", ""⟩ =
      Except.error ⟨JsErrorKind.genericError, "HTTP 403: Forbidden"⟩ :=
  C2_amended ⟨false, 403, "Forbidden", ""⟩ rfl

/-- C7: `parseResponse` is the per-record decoding of the scanned record
list, and a record whose blob splits into fewer than 4 segments contributes
zero events while the records around it decode exactly as they would without
it — the batch never fails. -/
theorem C7_malformed_tolerance :
    (∀ html, ScheduleParser.parseResponse html =
      decodeRecords (ScheduleParser.extractDate html) (scanRecords html.data)) ∧
    ∀ (d : ParsedDate) (l1 l2 : List RawRecord) (r : RawRecord),
      (jsSplit r.fullString sepStr).length < 4 →
      decodeRecords d (l1 ++ r :: l2) = decodeRecords d l1 ++ decodeRecords d l2 := by
  refine ⟨fun _ => rfl, fun d l1 l2 r h => ?_⟩
  have hb : ScheduleParser.buildEvent d r = none := by
    unfold ScheduleParser.buildEvent
    simp [h]
  simp [decodeRecords, List.filterMap_append, List.filterMap_cons, hb]

/-- C7, witness: a record whose blob has a single segment is dropped while a
surrounding well-formed record still decodes. -/
theorem C7_witness :
    (jsSplit "Broken" sepStr).length < 4 ∧
    decodeRecords ⟨0, 0, 0⟩
        ([⟨"A" ++ esc ++ "B" ++ esc ++ "C" ++ esc ++ "D", "11:00", "12:20"⟩] ++
          ⟨"Broken", "09:00", "10:20"⟩ :: []) =
      decodeRecords ⟨0, 0, 0⟩ [⟨"A" ++ esc ++ "B" ++ esc ++ "C" ++ esc ++ "D", "11:00", "12:20"⟩] ++
        decodeRecords ⟨0, 0, 0⟩ [] :=
  ⟨by decide,
    (C7_malformed_tolerance.2 ⟨0, 0, 0⟩
      [⟨"A" ++ esc ++ "B" ++ esc ++ "C" ++ esc ++ "D", "11:00", "12:20"⟩] []
      ⟨"Broken", "09:00", "10:20"⟩ (by decide))⟩

/-- C8: decoding the payload of the concrete scenario yields exactly one
event with course `English`, teacher `Иванов И.И.`, times `11:00`–`12:20`,
type `Лекция`, room `206`, address `Комсомольский пр-кт, д.6` and group
`Группа1`. -/
theorem C8_concrete_decode :
    ScheduleParser.parseResponse c8html = [c8event] := by
  decide

/-- Helper: setting a key makes it readable. -/
lemma kvGet_set_self (l : Store) (k : String) (v : CacheItem) :
    kvGet (kvSet l k v) k = some v := by
  simp [kvSet, kvGet]

/-- Helper: removing a key makes it unreadable. -/
lemma kvGet_remove_self (l : Store) (k : String) : kvGet (kvRemove l k) k = none := by
  induction l with
  | nil => rfl
  | cons p r ih =>
    by_cases h : p.1 = k
    · simpa [kvRemove, List.filter, h] using ih
    · simpa [kvRemove, List.filter, h, kvGet] using ih

/-- Helper: after `save` with a truthy TTL and CloudStorage not explicitly
disabled, reading the date's key yields the saved envelope (whichever
backend received it). -/
lemma read_save (d : String) (E : List ScheduleEvent) (t : Int) (u : Option Bool)
    (now : Int) (st : CacheState) (ht : t ≠ 0) (hu : u ≠ some false) :
    ScheduleCache.read (getCacheKey d)
        (ScheduleCache.save d E (some ⟨some t, u⟩) now st) =
      some ⟨E, now, t⟩ := by
  rcases st with ⟨cloud, loc⟩
  cases cloud with
  | none => simp [ScheduleCache.save, ScheduleCache.read, ht, kvGet_set_self]
  | some c =>
    cases u with
    | none => simp [ScheduleCache.save, ScheduleCache.read, ht, kvGet_set_self]
    | some b =>
      cases b with
      | false => exact absurd rfl hu
      | true => simp [ScheduleCache.save, ScheduleCache.read, ht, kvGet_set_self]

/-- Helper: `remove` leaves the date's key unreadable in the local backend. -/
lemma remove_local (d : String) (st : CacheState) :
    kvGet (ScheduleCache.remove d st).localStore (getCacheKey d) = none := by
  rcases st with ⟨cloud, loc⟩
  cases cloud <;> simp [ScheduleCache.remove, kvGet_remove_self]

/-- Helper: `remove` leaves the date's key absent from the remote backend. -/
lemma remove_cloud (d : String) (st : CacheState) :
    cloudHas (ScheduleCache.remove d st) (getCacheKey d) = false := by
  rcases st with ⟨cloud, loc⟩
  cases cloud with
  | none => simp [ScheduleCache.remove, cloudHas]
  | some c => simp [ScheduleCache.remove, cloudHas, kvGet_remove_self]

/-- Helper: `remove` leaves the date's key unreadable altogether. -/
lemma read_remove (d : String) (st : CacheState) :
    ScheduleCache.read (getCacheKey d) (ScheduleCache.remove d st) = none := by
  rcases st with ⟨cloud, loc⟩
  cases cloud <;>
    simp [ScheduleCache.remove, ScheduleCache.read, kvGet_remove_self]

/-- Helper: when the date's key is unreadable, `get` misses and does not
touch the state. -/
lemma get_miss_of_read_none (d : String) (now : Int) (st : CacheState)
    (h : ScheduleCache.read (getCacheKey d) st = none) :
    ScheduleCache.get d now st = (none, st) := by
  unfold ScheduleCache.get
  rw [h]

/-- Helper: when the date's key reads back a still-valid envelope, `get`
returns its data and does not touch the state. -/
lemma get_hit_of_read (d : String) (now : Int) (st : CacheState) (item : CacheItem)
    (hr : ScheduleCache.read (getCacheKey d) st = some item)
    (hv : ScheduleCache.isValid item now = true) :
    ScheduleCache.get d now st = (some item.data, st) := by
  unfold ScheduleCache.get
  rw [hr]
  simp [hv]

/-- Helper: when the date's key reads back an expired envelope, `get`
misses and evicts. -/
lemma get_expired_of_read (d : String) (now : Int) (st : CacheState) (item : CacheItem)
    (hr : ScheduleCache.read (getCacheKey d) st = some item)
    (hv : ScheduleCache.isValid item now = false) :
    ScheduleCache.get d now st = (none, ScheduleCache.remove d st) := by
  unfold ScheduleCache.get
  rw [hr]
  simp [hv]

/-- Helper: a `get` that returns null leaves no readable envelope for the
date behind. -/
lemma read_after_get_none (d : String) (now : Int) (st : CacheState)
    (h : (ScheduleCache.get d now st).1 = none) :
    ScheduleCache.read (getCacheKey d) (ScheduleCache.get d now st).2 = none := by
  rcases hr : ScheduleCache.read (getCacheKey d) st with _ | item
  · rw [get_miss_of_read_none d now st hr]
    exact hr
  · cases hv : ScheduleCache.isValid item now with
    | true =>
      rw [get_hit_of_read d now st item hr hv] at h
      exact absurd h (by simp)
    | false =>
      rw [get_expired_of_read d now st item hr hv]
      exact read_remove d st

/-- Helper: on a cache miss, `getScheduleForDay` runs the fetch path on the
post-lookup state. -/
lemma getDay_miss (cfg : ScheduleServiceConfig) (fetched : List ScheduleEvent)
    (d : String) (now : Int) (st : CacheState) (hc : cfg.useCache = true)
    (hmiss : (ScheduleCache.get d now st).1 = none) :
    ScheduleService.getScheduleForDay cfg fetched d false now st =
      ScheduleService.fetchAndCache cfg fetched d now (ScheduleCache.get d now st).2 := by
  have hpair : ScheduleCache.get d now st = (none, (ScheduleCache.get d now st).2) :=
    Prod.ext hmiss rfl
  unfold ScheduleService.getScheduleForDay
  rw [hc, hpair]
  simp

/-- Helper: on a cache hit, `getScheduleForDay` returns the cached events
with no fetch. -/
lemma getDay_hit (cfg : ScheduleServiceConfig) (fetched : List ScheduleEvent)
    (d : String) (now : Int) (st st1 : CacheState) (E : List ScheduleEvent)
    (hc : cfg.useCache = true) (hget : ScheduleCache.get d now st = (some E, st1)) :
    ScheduleService.getScheduleForDay cfg fetched d false now st = ⟨E, st1, 0⟩ := by
  unfold ScheduleService.getScheduleForDay
  rw [hc, hget]
  simp

/-- Helper: the fetch path with a nonempty result saves it with the
service's TTL. -/
lemma fetchAndCache_pos (cfg : ScheduleServiceConfig) (fetched : List ScheduleEvent)
    (d : String) (now : Int) (st : CacheState) (hc : cfg.useCache = true)
    (h : 0 < fetched.length) :
    ScheduleService.fetchAndCache cfg fetched d now st =
      ⟨fetched, ScheduleCache.save d fetched (some ⟨some cfg.cacheTTL, some true⟩) now st, 1⟩ := by
  unfold ScheduleService.fetchAndCache
  rw [hc]
  simp [h]

/-- Helper: the fetch path with an empty result saves nothing. -/
lemma fetchAndCache_nil (cfg : ScheduleServiceConfig) (d : String) (now : Int)
    (st : CacheState) :
    ScheduleService.fetchAndCache cfg [] d now st = ⟨[], st, 1⟩ := by
  unfold ScheduleService.fetchAndCache
  simp

/-- C5: saving events for a date with a positive TTL and reading the date
back while `now - timestamp < ttl` returns exactly the saved sequence —
same elements, same order — whichever backend is available. -/
theorem C5_roundtrip (st : CacheState) (d : String) (E : List ScheduleEvent)
    (t ts now : Int) (h0 : 0 < t) (hfresh : now - ts < t) :
    (ScheduleCache.get d now (ScheduleCache.save d E (some ⟨some t, none⟩) ts st)).1 =
      some E := by
  have ht : t ≠ 0 := ne_of_gt h0
  unfold ScheduleCache.get
  rw [read_save d E t none ts st ht (by simp)]
  simp [ScheduleCache.isValid, ht, hfresh]

/-- C5, witness: the round trip at concrete values (`ttl = 1000`, written at
0, read at 500). -/
theorem C5_witness :
    (0 : Int) < 1000 ∧ (500 : Int) - 0 < 1000 ∧
    (ScheduleCache.get "2026-03-06" 500
        (ScheduleCache.save "2026-03-06" [ev1] (some ⟨some 1000, none⟩) 0
          ⟨some [], []⟩)).1 = some [ev1] :=
  ⟨by decide, by decide,
    C5_roundtrip ⟨some [], []⟩ "2026-03-06" [ev1] 1000 0 500 (by decide) (by decide)⟩

/-- C6: once an entry's finite TTL has elapsed (`ttl <= now - timestamp`),
`get` returns null and lazily evicts the key, leaving it absent from the
local backend and from the remote backend (when the host exposes one). -/
theorem C6_lazy_eviction (st : CacheState) (d : String) (E : List ScheduleEvent)
    (t ts now : Int) (h0 : 0 < t) (hexp : t ≤ now - ts) :
    (ScheduleCache.get d now (ScheduleCache.save d E (some ⟨some t, none⟩) ts st)).1 =
        none ∧
    kvGet (ScheduleCache.get d now
        (ScheduleCache.save d E (some ⟨some t, none⟩) ts st)).2.localStore
        (getCacheKey d) = none ∧
    cloudHas (ScheduleCache.get d now
        (ScheduleCache.save d E (some ⟨some t, none⟩) ts st)).2
        (getCacheKey d) = false := by
  have ht : t ≠ 0 := ne_of_gt h0
  have hnv : ¬ ((now : Int) - ts < t) := not_lt.mpr hexp
  have hg := get_expired_of_read d now
    (ScheduleCache.save d E (some ⟨some t, none⟩) ts st) ⟨E, ts, t⟩
    (read_save d E t none ts st ht (by simp))
    (by simp [ScheduleCache.isValid, ht, hnv])
  rw [hg]
  exact ⟨rfl, remove_local d _, remove_cloud d _⟩

/-- C6, witness: the eviction at concrete values (`ttl = 1000`, written at 0,
read at 1001), starting from a state with both backends present. -/
theorem C6_witness :
    (0 : Int) < 1000 ∧ (1000 : Int) ≤ 1001 - 0 ∧
    ((ScheduleCache.get "2026-03-06" 1001
        (ScheduleCache.save "2026-03-06" [ev1] (some ⟨some 1000, none⟩) 0
          ⟨some [], []⟩)).1 = none ∧
      kvGet (ScheduleCache.get "2026-03-06" 1001
          (ScheduleCache.save "2026-03-06" [ev1] (some ⟨some 1000, none⟩) 0
            ⟨some [], []⟩)).2.localStore (getCacheKey "2026-03-06") = none ∧
      cloudHas (ScheduleCache.get "2026-03-06" 1001
          (ScheduleCache.save "2026-03-06" [ev1] (some ⟨some 1000, none⟩) 0
            ⟨some [], []⟩)).2 (getCacheKey "2026-03-06") = false) :=
  ⟨by decide, by decide,
    C6_lazy_eviction ⟨some [], []⟩ "2026-03-06" [ev1] 1000 0 1001 (by decide) (by decide)⟩

/-- C3, counterexample: when the fetch pipeline returns an empty event list,
nothing is cached, so two consecutive non-forced `getDay` calls on an empty
cache run the pipeline twice — not exactly once — and the second call is not
served from cache. -/
theorem C3_counterexample :
    (ScheduleService.getScheduleForDay defaultServiceConfig [] "2026-03-06" false 0
        ⟨some [], []⟩).fetches = 1 ∧
    (ScheduleService.getScheduleForDay defaultServiceConfig [] "2026-03-06" false 0
        (ScheduleService.getScheduleForDay defaultServiceConfig [] "2026-03-06" false 0
          ⟨some [], []⟩).state).fetches = 1 ∧
    ¬ ((ScheduleService.getScheduleForDay defaultServiceConfig [] "2026-03-06" false 0
          ⟨some [], []⟩).fetches +
        (ScheduleService.getScheduleForDay defaultServiceConfig [] "2026-03-06" false 0
          (ScheduleService.getScheduleForDay defaultServiceConfig [] "2026-03-06" false 0
            ⟨some [], []⟩).state).fetches = 1) := by
  refine ⟨by decide, by decide, by decide⟩

/-- C3, amended: starting from a state with no valid cache entry for the
date, two consecutive non-forced `getDay(d)` calls perform exactly one fetch
pipeline *provided the pipeline returns a nonempty event list*: the first
call fetches and caches, the second is served entirely from cache (zero
fetches) and returns the same events.  (When the pipeline returns an empty
list nothing is cached and the second call fetches again.) -/
theorem C3_amended (st : CacheState) (d : String) (now : Int)
    (fetched : List ScheduleEvent)
    (hmiss : (ScheduleCache.get d now st).1 = none) (hne : fetched ≠ []) :
    (ScheduleService.getScheduleForDay defaultServiceConfig fetched d false now st).fetches
        = 1 ∧
    (ScheduleService.getScheduleForDay defaultServiceConfig fetched d false now
        (ScheduleService.getScheduleForDay defaultServiceConfig fetched d false now
          st).state).fetches = 0 ∧
    (ScheduleService.getScheduleForDay defaultServiceConfig fetched d false now
        (ScheduleService.getScheduleForDay defaultServiceConfig fetched d false now
          st).state).events =
      (ScheduleService.getScheduleForDay defaultServiceConfig fetched d false now
        st).events := by
  have hlen : 0 < fetched.length := List.length_pos.mpr hne
  have hr1 :=
    (getDay_miss defaultServiceConfig fetched d now st rfl hmiss).trans
      (fetchAndCache_pos defaultServiceConfig fetched d now
        (ScheduleCache.get d now st).2 rfl hlen)
  have ht : defaultServiceConfig.cacheTTL ≠ 0 := by decide
  have hv : ScheduleCache.isValid ⟨fetched, now, defaultServiceConfig.cacheTTL⟩ now
      = true := by
    simp [ScheduleCache.isValid, ht, defaultServiceConfig]
  have hget2 := get_hit_of_read d now
    (ScheduleCache.save d fetched
      (some ⟨some defaultServiceConfig.cacheTTL, some true⟩) now
      (ScheduleCache.get d now st).2)
    ⟨fetched, now, defaultServiceConfig.cacheTTL⟩
    (read_save d fetched defaultServiceConfig.cacheTTL (some true) now
      (ScheduleCache.get d now st).2 ht (by simp))
    hv
  have hr2 := getDay_hit defaultServiceConfig fetched d now _ _ fetched rfl hget2
  refine ⟨?_, ?_, ?_⟩ <;> simp [hr1, hr2]

/-- C3, witness: the amended statement at a concrete nonempty fetch on an
empty cache. -/
theorem C3_witness :
    (ScheduleCache.get "2026-03-06" 0 ⟨some [], []⟩).1 = none ∧ [ev1] ≠ [] ∧
    ((ScheduleService.getScheduleForDay defaultServiceConfig [ev1] "2026-03-06" false 0
        ⟨some [], []⟩).fetches = 1 ∧
      (ScheduleService.getScheduleForDay defaultServiceConfig [ev1] "2026-03-06" false 0
        (ScheduleService.getScheduleForDay defaultServiceConfig [ev1] "2026-03-06" false 0
          ⟨some [], []⟩).state).fetches = 0 ∧
      (ScheduleService.getScheduleForDay defaultServiceConfig [ev1] "2026-03-06" false 0
        (ScheduleService.getScheduleForDay defaultServiceConfig [ev1] "2026-03-06" false 0
          ⟨some [], []⟩).state).events =
        (ScheduleService.getScheduleForDay defaultServiceConfig [ev1] "2026-03-06" false 0
          ⟨some [], []⟩).events) :=
  ⟨by decide, by decide,
    C3_amended ⟨some [], []⟩ "2026-03-06" 0 [ev1] (by decide) (by decide)⟩

/-- C10, counterexample: with an *expired* entry for the date in the local
backend, a non-forced `getDay` whose pipeline returns an empty list does
change the cache backends — the lookup lazily evicts the expired entry — so
the state is not unchanged by the call. -/
theorem C10_counterexample :
    (ScheduleService.getScheduleForDay defaultServiceConfig [] "2026-03-06" false 1001
        c10state).fetches = 1 ∧
    (ScheduleService.getScheduleForDay defaultServiceConfig [] "2026-03-06" false 1001
        c10state).events = [] ∧
    (ScheduleService.getScheduleForDay defaultServiceConfig [] "2026-03-06" false 1001
        c10state).state ≠ c10state := by
  refine ⟨by decide, by decide, by decide⟩

/-- C10, amended: when the cache misses and the pipeline returns an empty
list, `getScheduleForDay` writes nothing — its final state is exactly the
post-lookup state, which differs from the initial one at most by the lazy
eviction the lookup itself performed — so empty results are never cached and
a subsequent non-forced `getDay` for the date runs the pipeline again. -/
theorem C10_amended (cfg : ScheduleServiceConfig) (st : CacheState) (d : String)
    (now now2 : Int) (hc : cfg.useCache = true)
    (hmiss : (ScheduleCache.get d now st).1 = none) :
    (ScheduleService.getScheduleForDay cfg [] d false now st).events = [] ∧
    (ScheduleService.getScheduleForDay cfg [] d false now st).fetches = 1 ∧
    (ScheduleService.getScheduleForDay cfg [] d false now st).state =
      (ScheduleCache.get d now st).2 ∧
    (ScheduleService.getScheduleForDay cfg [] d false now2
        (ScheduleService.getScheduleForDay cfg [] d false now st).state).fetches = 1 := by
  have hr1 :=
    (getDay_miss cfg [] d now st hc hmiss).trans
      (fetchAndCache_nil cfg d now (ScheduleCache.get d now st).2)
  have hrd := read_after_get_none d now st hmiss
  have hg2 := get_miss_of_read_none d now2 (ScheduleCache.get d now st).2 hrd
  have h3 :=
    (getDay_miss cfg [] d now2 (ScheduleCache.get d now st).2 hc (by rw [hg2])).trans
      (fetchAndCache_nil cfg d now2 (ScheduleCache.get d now2 (ScheduleCache.get d now st).2).2)
  refine ⟨?_, ?_, ?_, ?_⟩ <;> simp [hr1, h3]

/-- C10, witness: the amended statement at a concrete empty state. -/
theorem C10_witness :
    defaultServiceConfig.useCache = true ∧
    (ScheduleCache.get "2026-03-06" 0 ⟨some [], []⟩).1 = none ∧
    ((ScheduleService.getScheduleForDay defaultServiceConfig [] "2026-03-06" false 0
        ⟨some [], []⟩).events = [] ∧
      (ScheduleService.getScheduleForDay defaultServiceConfig [] "2026-03-06" false 0
        ⟨some [], []⟩).fetches = 1 ∧
      (ScheduleService.getScheduleForDay defaultServiceConfig [] "2026-03-06" false 0
        ⟨some [], []⟩).state = (ScheduleCache.get "2026-03-06" 0 ⟨some [], []⟩).2 ∧
      (ScheduleService.getScheduleForDay defaultServiceConfig [] "2026-03-06" false 5
        (ScheduleService.getScheduleForDay defaultServiceConfig [] "2026-03-06" false 0
          ⟨some [], []⟩).state).fetches = 1) :=
  ⟨rfl, by decide,
    C10_amended defaultServiceConfig ⟨some [], []⟩ "2026-03-06" 0 5 rfl (by decide)⟩

/-- Helper: floor division and Euclidean division agree for divisor 4. -/
lemma fdiv4 (a : Int) : a.fdiv 4 = a / 4 := Int.fdiv_eq_ediv a (by norm_num)

/-- Helper: floor division and Euclidean division agree for divisor 5. -/
lemma fdiv5 (a : Int) : a.fdiv 5 = a / 5 := Int.fdiv_eq_ediv a (by norm_num)

/-- Helper: floor division and Euclidean division agree for divisor 100. -/
lemma fdiv100 (a : Int) : a.fdiv 100 = a / 100 := Int.fdiv_eq_ediv a (by norm_num)

/-- Helper: floor division and Euclidean division agree for divisor 400. -/
lemma fdiv400 (a : Int) : a.fdiv 400 = a / 400 := Int.fdiv_eq_ediv a (by norm_num)

/-- Helper: splitting a year count into 400-year eras preserves the leap-day
tally (`146097` days per era). -/
lemma era_split (yy : Int) :
    yy / 400 * 146097 + (yy - yy / 400 * 400) * 365 +
      (yy - yy / 400 * 400) / 4 - (yy - yy / 400 * 400) / 100 =
    365 * yy + yy / 4 - yy / 100 + yy / 400 := by
  omega

set_option maxHeartbeats 2000000 in
/-- Helper: the ECMAScript `MakeDay` day count agrees with the independent
civil-calendar era/cycle day count on every month of every year. -/
lemma makeDay_eq_civil (y : Int) (m d : Nat) (h1 : 1 ≤ m) (h2 : m ≤ 12) :
    ecmaMakeDay y m d = civilDaysFromEpoch y m d := by
  have hsy := era_split y
  have hsy1 := era_split (y - 1)
  have e4 : (y - 1969) / 4 = (y - 1) / 4 - 492 := by omega
  have e100 : (y - 1901) / 100 = (y - 1) / 100 - 19 := by omega
  have e400 : (y - 1601) / 400 = (y - 1) / 400 - 4 := by omega
  interval_cases m <;> cases hleap : ecmaIsLeap y <;>
    (simp only [ecmaMakeDay, civilDaysFromEpoch, dayFromYear, monthOffset, hleap,
       Bool.and_false, Bool.and_true, Bool.false_eq_true, if_false, decide_eq_true_eq,
       fdiv4, fdiv5, fdiv100, fdiv400]
     simp only [ecmaIsLeap, Bool.or_eq_true, Bool.and_eq_true, decide_eq_true_eq,
       Bool.or_eq_false_iff, Bool.and_eq_false_iff, decide_eq_false_iff_not,
       Bool.not_eq_true] at hleap
     split_ifs <;> omega)

/-- Helper: a successful ISO-date parse has its month between 1 and 12. -/
lemma parseIsoDate_month_bounds {s : String} {y : Int} {m d : Nat}
    (h : parseIsoDate s = some (y, m, d)) : 1 ≤ m ∧ m ≤ 12 := by
  unfold parseIsoDate at h
  split at h
  · split at h
    · simp only [Bool.and_eq_true, decide_eq_true_eq] at h
      split at h
      · rename_i hrange
        simp only [Option.some.injEq, Prod.mk.injEq] at h
        obtain ⟨-, hm, -⟩ := h
        subst hm
        exact ⟨hrange.1.1.1, hrange.1.1.2⟩
      · exact absurd h (by simp)
    · exact absurd h (by simp)
  · exact absurd h (by simp)

/-- C4, counterexample: `dateToTimestamp` evaluates
`new Date("YYYY-MM-DD").getTime()`, which ECMA-262 interprets as **UTC**
midnight — for `2026-03-06` it yields 1772755200000 — whereas the date's
midnight in *local* time (here a UTC+3 environment, `getTimezoneOffset`
= −180) is 1772744400000, so the callback start timestamp is not the local
midnight the claim states. -/
theorem C4_counterexample :
    EIOSClient.dateToTimestamp "2026-03-06" = some 1772755200000 ∧
    localMidnightMillis (-180) 2026 3 6 = 1772744400000 ∧
    EIOSClient.dateToTimestamp "2026-03-06" ≠
      some (localMidnightMillis (-180) 2026 3 6) := by
  refine ⟨by decide, by decide, by decide⟩

/-- C4, amended: for every parsable target date, `navigateToDate` sets the
callback parameter to `c0:MOREBTN|<end>,<start>,86400000,null` where `start`
is the epoch-milliseconds value of the target date's midnight in **UTC**
(computed here independently by the civil-calendar day count) and
`end = start + 86400000`. -/
theorem C4_amended (s : String) (y : Int) (m d : Nat)
    (h : parseIsoDate s = some (y, m, d)) :
    EIOSClient.dateToTimestamp s = some (civilDaysFromEpoch y m d * 86400000) ∧
    EIOSClient.navigateCallbackParam s =
      some ("c0:MOREBTN|" ++ toString (civilDaysFromEpoch y m d * 86400000 + 86400000) ++
        "," ++ toString (civilDaysFromEpoch y m d * 86400000) ++ ",86400000,null") := by
  obtain ⟨hm1, hm2⟩ := parseIsoDate_month_bounds h
  have hts : EIOSClient.dateToTimestamp s = some (civilDaysFromEpoch y m d * 86400000) := by
    unfold EIOSClient.dateToTimestamp
    rw [h]
    simp only [Option.map]
    rw [makeDay_eq_civil y m d hm1 hm2]
  refine ⟨hts, ?_⟩
  unfold EIOSClient.navigateCallbackParam
  rw [hts]
  simp only [Option.map]

/-- C4, witness: the amended statement at the concrete date `2026-03-06`. -/
theorem C4_witness :
    parseIsoDate "2026-03-06" = some (2026, 3, 6) ∧
    (EIOSClient.dateToTimestamp "2026-03-06" =
        some (civilDaysFromEpoch 2026 3 6 * 86400000) ∧
    EIOSClient.navigateCallbackParam "2026-03-06" =
      some ("c0:MOREBTN|" ++ toString (civilDaysFromEpoch 2026 3 6 * 86400000 + 86400000) ++
        "," ++ toString (civilDaysFromEpoch 2026 3 6 * 86400000) ++ ",86400000,null")) :=
  ⟨by decide, C4_amended "2026-03-06" 2026 3 6 (by decide)⟩

/-- C9: navigation verification reads `visibleDays` in day/month/year order —
for target `2026-03-06` a response reporting `6/3/2026` is accepted as a
match, while the month/day/year reading of the same field would rebuild
`2026-06-03` and not match. -/
theorem C9_navigation_dmy :
    EIOSClient.verifyNavigation c9html "2026-03-06" = some true ∧
    EIOSClient.dateFromResponse "6/3/2026" = "2026-03-06" ∧
    dateFromResponseMDY "6/3/2026" = "2026-06-03" ∧
    dateFromResponseMDY "6/3/2026" ≠ "2026-03-06" := by
  refine ⟨by decide, by decide, by decide, by decide⟩


/-- Helper: a literal match consumes exactly the literal's length. -/
lemma matchLit_length (p : List Char) :
    ∀ s r, matchLit p s = some r → p.length + r.length = s.length := by
  induction p with
  | nil =>
    intro s r h
    simp only [matchLit, Option.some.injEq] at h
    subst h
    simp
  | cons c cs ih =>
    intro s r h
    cases s with
    | nil => simp [matchLit] at h
    | cons x xs =>
      simp only [matchLit] at h
      split at h
      · have := ih xs r h
        simp only [List.length_cons]
        omega
      · exact absurd h (by simp)

/-- Helper: a digit run never grows the input. -/
lemma takeDigits_length (s : List Char) : (takeDigits s).2.length ≤ s.length := by
  induction s with
  | nil => simp [takeDigits]
  | cons c cs ih =>
    rcases hii : takeDigits cs with ⟨ds, r⟩
    rw [hii] at ih
    simp only [takeDigits, hii]
    split
    · simpa using Nat.le_succ_of_le ih
    · simp

/-- Helper: a time match consumes exactly 5 characters. -/
lemma matchTime_length (s : List Char) (t : String) (r : List Char)
    (h : matchTime s = some (t, r)) : r.length + 5 = s.length := by
  unfold matchTime at h
  split at h
  · split at h
    · simp only [Option.some.injEq, Prod.mk.injEq] at h
      obtain ⟨-, rfl⟩ := h
      simp
    · exact absurd h (by simp)
  · exact absurd h (by simp)

/-- Helper: the record-pattern tail consumes exactly 17 characters. -/
lemma matchTail_length (s : List Char) (t1 t2 : String) (r : List Char)
    (h : matchTail s = some (t1, t2, r)) : r.length + 17 = s.length := by
  unfold matchTail at h
  rcases h1 : matchLit [sqc, ',', sqc] s with _ | s1
  · simp [h1] at h
  simp only [h1] at h
  rcases h2 : matchTime s1 with _ | ⟨u1, s2⟩
  · simp [h2] at h
  simp only [h2] at h
  rcases h3 : matchLit [sqc, ',', sqc] s2 with _ | s3
  · simp [h3] at h
  simp only [h3] at h
  rcases h4 : matchTime s3 with _ | ⟨u2, s4⟩
  · simp [h4] at h
  simp only [h4] at h
  rcases h5 : matchLit [sqc] s4 with _ | s5
  · simp [h5] at h
  simp only [h5] at h
  simp only [Option.some.injEq, Prod.mk.injEq] at h
  obtain ⟨-, -, rfl⟩ := h
  have e1 := matchLit_length _ _ _ h1
  have e2 := matchTime_length _ _ _ h2
  have e3 := matchLit_length _ _ _ h3
  have e4 := matchTime_length _ _ _ h4
  have e5 := matchLit_length _ _ _ h5
  simp only [List.length_cons, List.length_nil] at e1 e3 e5
  omega

/-- Helper: a successful lazy-blob match strictly consumes input. -/
lemma lazyBlobAux_length (s : List Char) :
    ∀ acc b t1 t2 rest, lazyBlobAux acc s = some (b, t1, t2, rest) →
      rest.length < s.length := by
  induction s with
  | nil =>
    intro acc b t1 t2 rest h
    simp [lazyBlobAux, matchTail, matchLit] at h
  | cons c cs ih =>
    intro acc b t1 t2 rest h
    simp only [lazyBlobAux] at h
    rcases hmt : matchTail (c :: cs) with _ | ⟨u1, u2, ur⟩ <;> simp only [hmt] at h
    · split at h
      · have := ih (c :: acc) b t1 t2 rest h
        simp only [List.length_cons]
        omega
      · exact absurd h (by simp)
    · simp only [Option.some.injEq, Prod.mk.injEq] at h
      obtain ⟨-, -, -, rfl⟩ := h
      have := matchTail_length _ _ _ _ hmt
      omega

/-- Helper: a successful record match strictly consumes input. -/
lemma matchRecordAt_length (s : List Char) (r : RawRecord) (rest : List Char)
    (h : matchRecordAt s = some (r, rest)) : rest.length < s.length := by
  unfold matchRecordAt at h
  rcases h1 : matchLit ['[', sqc] s with _ | s1
  · simp [h1] at h
  simp only [h1] at h
  rcases hd1 : takeDigits s1 with ⟨d1, s2⟩
  simp only [hd1] at h
  split at h
  · exact absurd h (by simp)
  rcases h2 : matchLit ['_'] s2 with _ | s3
  · simp [h2] at h
  simp only [h2] at h
  rcases hd2 : takeDigits s3 with ⟨d2, s4⟩
  simp only [hd2] at h
  split at h
  · exact absurd h (by simp)
  rcases h3 : matchLit [sqc, ',', '2', ',', '[', sqc] s4 with _ | s5
  · simp [h3] at h
  simp only [h3] at h
  rcases hs5 : s5 with _ | ⟨c, cs⟩
  · simp [hs5] at h
  simp only [hs5] at h
  split at h
  · rcases hlb : lazyBlobAux [c] cs with _ | ⟨blob, t1, t2, rest1⟩ <;>
      simp only [hlb] at h
    · exact absurd h (by simp)
    · simp only [Option.some.injEq, Prod.mk.injEq] at h
      obtain ⟨-, rfl⟩ := h
      have hl := lazyBlobAux_length cs [c] blob t1 t2 rest1 hlb
      have e1 := matchLit_length _ _ _ h1
      have e2 := matchLit_length _ _ _ h2
      have e3 := matchLit_length _ _ _ h3
      have t1l : s2.length ≤ s1.length := by
        simpa [hd1] using takeDigits_length s1
      have t2l : s4.length ≤ s3.length := by
        simpa [hd2] using takeDigits_length s3
      simp only [List.length_cons, List.length_nil] at e1 e2 e3
      have : s5.length = cs.length + 1 := by rw [hs5]; simp
      omega
  · exact absurd h (by simp)

/-- Helper: the scanning result does not depend on the fuel once the fuel
covers the input length. -/
lemma scanRecordsAux_fuel :
    ∀ (f1 f2 : Nat) (s : List Char), s.length ≤ f1 → s.length ≤ f2 →
      scanRecordsAux f1 s = scanRecordsAux f2 s := by
  intro f1
  induction f1 with
  | zero =>
    intro f2 s h1 h2
    have hs : s = [] := List.eq_nil_of_length_eq_zero (Nat.le_zero.mp h1)
    subst hs
    cases f2 <;> rfl
  | succ g1 ih =>
    intro f2 s h1 h2
    cases s with
    | nil => cases f2 <;> rfl
    | cons c cs =>
      cases f2 with
      | zero => exact absurd h2 (by simp)
      | succ g2 =>
        simp only [scanRecordsAux]
        rcases hm : matchRecordAt (c :: cs) with _ | ⟨r, rest⟩
        · simp only []
          exact ih g2 cs (by simp at h1; omega) (by simp at h2; omega)
        · simp only []
          have hlt := matchRecordAt_length _ _ _ hm
          simp only [List.length_cons] at hlt h1 h2
          rw [ih g2 rest (by omega) (by omega)]

/-- Helper: `s.length` fuel is always enough — `scanRecords` is the fuel-free
fixpoint of the scanning step, as every successful match strictly consumes
input. -/
lemma scanRecords_fuel_free (fuel : Nat) (s : List Char) (h : s.length ≤ fuel) :
    scanRecordsAux fuel s = scanRecords s :=
  scanRecordsAux_fuel fuel s.length s h le_rfl

end SMU
